import Mathlib

/-!
Shallow embedding of the authentication service in `src/main.py`:
password hashing and verification, the user-record store backed by a
single SQLite table, signed-token issuance and validation, and the
route-level orchestration (`login_for_access_token`, `register`,
`get_current_user`, `get_current_active_user`, `init_db`).

Time is modelled as an explicit `Int` number of seconds (the `now`
parameter replaces `datetime.now(timezone.utc)`); a `timedelta` is an
`Int` number of seconds.  Tokens are `List Char` (the token string).
The third-party libraries (`pwdlib` password hashing, PyJWT
encode/decode) are not part of the repository's source and are
modelled from the spec, as marked on their definitions.
-/

set_option maxRecDepth 100000

/-- `SECRET_KEY` constant from `src/main.py`. -/
def SECRET_KEY : String := "09d25e094faa6ca2556c818166b7a9563b93f7099f6f0f4caa6cf63b88e8d3e7"

/-- `ACCESS_TOKEN_EXPIRE_MINUTES` constant from `src/main.py`. -/
def ACCESS_TOKEN_EXPIRE_MINUTES : Int := 30

/-! ## Credential hasher (pwdlib), modelled from the spec -/

/-- Modelled from the spec: the salted one-way hash produced by
`pwdlib.PasswordHash.recommended().hash`.  The output format
self-describes its parameters: a leading marker, the salt, a second
marker, then the verification material.  (The library itself is not
part of this repository's source.) -/
def hashChars (salt : Nat) (password : List Char) : List Char :=
  '$' :: (List.replicate salt 'a' ++ '$' :: password)

/-- Modelled from the spec: helper of hash verification, consuming the
salt field of a stored hash and returning the verification material. -/
def stripSalt : List Char → Option (List Char)
  | [] => none
  | c :: r => if c = 'a' then stripSalt r else if c = '$' then some r else none

/-- Modelled from the spec: `pwdlib` verification.  Returns `true` iff
the plaintext matches the stored hash under the hash's embedded
parameters; a malformed stored hash yields `false`, never an error. -/
def verifyChars (plain hashed : List Char) : Bool :=
  match hashed with
  | [] => false
  | c :: r =>
    if c = '$' then
      match stripSalt r with
      | some rest => decide (rest = plain)
      | none => false
    else false

/-- Modelled from the spec: `password_hash.hash` with an explicit salt
(the source draws the salt from the hasher's randomness). -/
def password_hash_hash (salt : Nat) (password : String) : String :=
  String.mk (hashChars salt password.data)

/-- `verify_password` from `src/main.py`. -/
def verify_password (plain_password hashed_password : String) : Bool :=
  verifyChars plain_password.data hashed_password.data

/-- `get_password_hash` from `src/main.py` (salt fixed for the model). -/
def get_password_hash (password : String) : String :=
  password_hash_hash 0 password

/-- `DUMMY_HASH` from `src/main.py`: hashed once at startup. -/
def DUMMY_HASH : String := password_hash_hash 0 "dummypassword"

/-! ## Data model -/

/-- `UserInDB` model from `src/main.py` (one row of the `users` table). -/
structure UserInDB where
  username : String
  full_name : Option String
  email : Option String
  hashed_password : String
  disabled : Bool
deriving DecidableEq, Repr

/-- `UserCreate` model from `src/main.py`. -/
structure UserCreate where
  username : String
  password : String
  email : Option String
  full_name : Option String
deriving DecidableEq, Repr

/-- `User` model from `src/main.py` (public fields only). -/
structure User where
  username : String
  email : Option String
  full_name : Option String
  disabled : Option Bool
deriving DecidableEq, Repr

/-- The `users` SQLite table: its column names (as reported by
`PRAGMA table_info`) and its rows. -/
structure UsersTable where
  columns : List String
  rows : List UserInDB
deriving DecidableEq, Repr

/-- `HTTPException` as raised by the handlers in `src/main.py`. -/
structure HTTPException where
  status_code : Nat
  detail : String
  headers : List (String × String)
deriving DecidableEq, Repr

/-- The unified credentials failure raised by `get_current_user`. -/
def credentials_exception : HTTPException :=
  { status_code := 401
    detail := "Could not validate credentials"
    headers := [("WWW-Authenticate", "Bearer")] }

/-! ## User store -/

/-- `get_user` from `src/main.py`: SELECT the first row whose
`username` equals the argument. -/
def get_user (db : UsersTable) (username : String) : Option UserInDB :=
  db.rows.find? (fun r => r.username == username)

/-- `create_user` from `src/main.py`: hash the password and INSERT;
the table's UNIQUE constraint on `username` makes a duplicate INSERT
fail with an integrity error (an untyped `sqlite3.IntegrityError` at
the Python level, modelled as the `.error` case). -/
def create_user (db : UsersTable) (user : UserCreate) : Except String UsersTable :=
  let hashed_password := get_password_hash user.password
  if db.rows.any (fun r => r.username == user.username) then
    Except.error "UNIQUE constraint failed: users.username"
  else
    Except.ok
      { db with
        rows := db.rows ++
          [{ username := user.username
             full_name := user.full_name
             email := user.email
             hashed_password := hashed_password
             disabled := false }] }

/-! ## Authentication -/

/-- `authenticate_user` from `src/main.py`, instrumented to record the
list of password verifications it performs, in order, as
`(plaintext, stored hash)` pairs. -/
def authenticate_user_trace (db : UsersTable) (username password : String) :
    Option UserInDB × List (String × String) :=
  match get_user db username with
  | none => (none, [(password, DUMMY_HASH)])
  | some user =>
    if verify_password password user.hashed_password then
      (some user, [(password, user.hashed_password)])
    else
      (none, [(password, user.hashed_password)])

/-- `authenticate_user` from `src/main.py` (result component only). -/
def authenticate_user (db : UsersTable) (username password : String) :
    Option UserInDB :=
  (authenticate_user_trace db username password).1

/-! ## Token codec (PyJWT), modelled from the spec

The spec describes the token as an opaque string: the signed claim set
(subject and absolute expiry), where verification checks signature
integrity first (rejecting on any tamper), then expiry (a token is
invalid once current time is at or past the expiry), then extracts the
subject.  We model the codec as an ideal MAC: the payload is encoded
over a dot-free alphabet, and the signature part is the MAC of the
payload under the server secret. -/

/-- The claim set signed into a token: subject and expiry. -/
structure Payload where
  sub : Option String
  exp : Int
deriving DecidableEq, Repr

/-- Unary encoding of a natural number, terminated by a marker. -/
def encNat (n : Nat) : List Char :=
  List.replicate n 'a' ++ ['b']

/-- Encoding of a list of character codes. -/
def encCodes (codes : List Nat) : List Char :=
  (codes.map encNat).flatten

/-- Encoding of a string as its character codes, terminated. -/
def encStr (s : String) : List Char :=
  encCodes (s.data.map Char.toNat) ++ ['c']

/-- Encoding of the optional subject claim. -/
def encSub : Option String → List Char
  | none => ['o']
  | some s => 's' :: encStr s

/-- Encoding of the expiry claim. -/
def encInt : Int → List Char
  | Int.ofNat n => 'p' :: encNat n
  | Int.negSucc n => 'q' :: encNat n

/-- Serialisation of the claim set (dot-free). -/
def encPayload (p : Payload) : List Char :=
  encSub p.sub ++ encInt p.exp

/-- The server-held signing key, shared by issue and verify. -/
def signingKey : List Char := SECRET_KEY.data

/-- Modelled from the spec: the ideal MAC of a payload under the
server secret — any tamper of payload or signature is detected. -/
def signBytes (payload : List Char) : List Char :=
  payload ++ signingKey

/-- Modelled from the spec: `jwt.encode` — serialise the claims and
append the signature, separated by a dot. -/
def jwt_encode (p : Payload) : List Char :=
  encPayload p ++ '.' :: signBytes (encPayload p)

/-- The distinguishable rejection reasons of token verification
(PyJWT's `InvalidTokenError` subclasses). -/
inductive InvalidTokenError where
  | decodeError
  | signatureError
  | expiredSignature
deriving DecidableEq, Repr

/-- Parser: consume a unary-encoded natural number. -/
def parseNatAux : List Char → Nat → Option (Nat × List Char)
  | [], _ => none
  | c :: r, cur =>
    if c = 'a' then parseNatAux r (cur + 1)
    else if c = 'b' then some (cur, r)
    else none

/-- Parser: consume a terminated list of character codes. -/
def parseCodesAux : List Char → Nat → List Nat → Option (List Nat × List Char)
  | [], _, _ => none
  | c :: r, cur, acc =>
    if c = 'a' then parseCodesAux r (cur + 1) acc
    else if c = 'b' then parseCodesAux r 0 (acc ++ [cur])
    else if c = 'c' then (if cur = 0 then some (acc, r) else none)
    else none

/-- Parser: consume an encoded integer. -/
def parseInt : List Char → Option (Int × List Char)
  | [] => none
  | c :: r =>
    if c = 'p' then (parseNatAux r 0).map (fun x => (Int.ofNat x.1, x.2))
    else if c = 'q' then (parseNatAux r 0).map (fun x => (Int.negSucc x.1, x.2))
    else none

/-- Parser: consume an encoded optional subject. -/
def parseSub : List Char → Option (Option String × List Char)
  | [] => none
  | c :: r =>
    if c = 'o' then some (none, r)
    else if c = 's' then
      (parseCodesAux r 0 []).map
        (fun x => (some (String.mk (x.1.map Char.ofNat)), x.2))
    else none

/-- Parser: recover a claim set from a payload segment. -/
def parsePayload (l : List Char) : Option Payload :=
  match parseSub l with
  | none => none
  | some (sub, r) =>
    match parseInt r with
    | none => none
    | some (exp, r') => if r' = [] then some { sub := sub, exp := exp } else none

/-- Split a token string at its dots (`String.split` on `'.'`). -/
def splitDot : List Char → List (List Char)
  | [] => [[]]
  | c :: rest =>
    if c = '.' then [] :: splitDot rest
    else
      match splitDot rest with
      | [] => [[c]]
      | s :: ss => (c :: s) :: ss

/-- Modelled from the spec: `jwt.decode` — reject any structural
failure, any signature mismatch, and any elapsed expiry (a token is
invalid once current time is at or past the expiry), each with its own
`InvalidTokenError`; otherwise recover the claims. -/
def jwt_decode (token : List Char) (now : Int) : Except InvalidTokenError Payload :=
  match splitDot token with
  | [pl, sig] =>
    if sig = signBytes pl then
      match parsePayload pl with
      | none => Except.error InvalidTokenError.decodeError
      | some p =>
        if now < p.exp then Except.ok p
        else Except.error InvalidTokenError.expiredSignature
  else Except.error InvalidTokenError.signatureError
  | _ => Except.error InvalidTokenError.decodeError

/-! ## Token issuance and resolution (`src/main.py`) -/

/-- Python truthiness of the `expires_delta` argument in
`if expires_delta:` — `None` and the zero `timedelta` are falsy, every
nonzero `timedelta` (negative included) is truthy. -/
def expires_delta_truthy : Option Int → Bool
  | none => false
  | some d => d != 0

/-- The expiry computed by `create_access_token` in `src/main.py`:
`now + expires_delta` when the argument is truthy, otherwise the
15-minute default. -/
def access_token_expire (now : Int) (expires_delta : Option Int) : Int :=
  if expires_delta_truthy expires_delta then now + expires_delta.getD 0
  else now + 15 * 60

/-- `create_access_token` from `src/main.py`: copy the claims, set the
computed expiry, and sign.  The callers pass `{"sub": username}` as
the claims, modelled by the `sub` argument. -/
def create_access_token (now : Int) (sub : Option String) (expires_delta : Option Int) :
    List Char :=
  jwt_encode { sub := sub, exp := access_token_expire now expires_delta }

/-- `get_current_user` from `src/main.py`: decode the token; any
`InvalidTokenError`, a missing subject claim, and an unknown subject
all raise the same `credentials_exception`. -/
def get_current_user (db : UsersTable) (now : Int) (token : List Char) :
    Except HTTPException UserInDB :=
  match jwt_decode token now with
  | Except.error _ => Except.error credentials_exception
  | Except.ok payload =>
    match payload.sub with
    | none => Except.error credentials_exception
    | some username =>
      match get_user db username with
      | none => Except.error credentials_exception
      | some user => Except.ok user

/-- `get_current_active_user` from `src/main.py`. -/
def get_current_active_user (current_user : UserInDB) :
    Except HTTPException UserInDB :=
  if current_user.disabled then
    Except.error { status_code := 400, detail := "Inactive user", headers := [] }
  else Except.ok current_user

/-! ## Route handlers (`src/main.py`) -/

/-- `Token` response model from `src/main.py`. -/
structure Token where
  access_token : List Char
  token_type : String
deriving DecidableEq, Repr

/-- A route outcome: either an `HTTPException` deliberately raised by
the handler, or some other exception escaping it uncaught. -/
inductive RouteError where
  | http (e : HTTPException)
  | uncaught (msg : String)
deriving DecidableEq, Repr

/-- `login_for_access_token` from `src/main.py`. -/
def login_for_access_token (db : UsersTable) (now : Int) (username password : String) :
    Except RouteError Token :=
  match authenticate_user db username password with
  | none =>
    Except.error (RouteError.http
      { status_code := 401
        detail := "Incorrect username or password"
        headers := [("WWW-Authenticate", "Bearer")] })
  | some user =>
    Except.ok
      { access_token :=
          create_access_token now (some user.username)
            (some (60 * ACCESS_TOKEN_EXPIRE_MINUTES))
        token_type := "bearer" }

/-- `register` from `src/main.py`: existence check, then insert.
Returns the resulting table together with the handler outcome. -/
def register (db : UsersTable) (user : UserCreate) :
    UsersTable × Except RouteError User :=
  match get_user db user.username with
  | some _ =>
    (db, Except.error (RouteError.http
      { status_code := 400, detail := "Username already exists", headers := [] }))
  | none =>
    match create_user db user with
    | Except.ok db' =>
      (db', Except.ok
        { username := user.username
          email := user.email
          full_name := user.full_name
          disabled := some false })
    | Except.error e => (db, Except.error (RouteError.uncaught e))

/-! ## Schema initialisation (`src/main.py`) -/

/-- The columns of a freshly created `users` table. -/
def baseColumns : List String :=
  ["id", "username", "full_name", "email", "hashed_password", "disabled"]

/-- `ALTER TABLE users ADD COLUMN c`: the new column is appended and
every existing row takes the column's declared default value. -/
def addColumn (t : UsersTable) (c : String) : UsersTable :=
  { columns := t.columns ++ [c]
    rows := t.rows.map (fun r =>
      if c = "full_name" then { r with full_name := none }
      else if c = "email" then { r with email := none }
      else if c = "hashed_password" then { r with hashed_password := "" }
      else if c = "disabled" then { r with disabled := false }
      else r) }

/-- `CREATE TABLE IF NOT EXISTS users (...)`. -/
def createTableIfNotExists (db : Option UsersTable) : UsersTable :=
  match db with
  | some t => t
  | none => { columns := baseColumns, rows := [] }

/-- The seed user inserted by `init_db` from `src/main.py`. -/
def seedUser : UserCreate :=
  { username := "johndoe"
    password := "secret"
    email := some "johndoe@example.com"
    full_name := some "John Doe" }

/-- One conditional `ALTER TABLE ... ADD COLUMN` of `init_db`: the
column is added unless it is already in the snapshot of column names
taken before the migration started. -/
def migrate_step (t : UsersTable) (snapshot : List String) (c : String) : UsersTable :=
  if c ∈ snapshot then t else addColumn t c

/-- `init_db` from `src/main.py`: ensure the table exists, snapshot
the column set once, add each missing column, then seed the default
user if absent. -/
def init_db (db : Option UsersTable) : UsersTable :=
  let t0 := createTableIfNotExists db
  let columns := t0.columns
  let t4 :=
    migrate_step
      (migrate_step
        (migrate_step (migrate_step t0 columns "full_name") columns "email")
        columns "hashed_password")
      columns "disabled"
  if (get_user t4 "johndoe").isSome then t4
  else
    match create_user t4 seedUser with
    | Except.ok t5 => t5
    | Except.error _ => t4

/-! ## Concrete fixtures used by the witnesses -/

def demoUser : UserInDB :=
  { username := "g", full_name := none, email := none,
    hashed_password := get_password_hash "pw", disabled := false }

def demoTable : UsersTable :=
  { columns := baseColumns, rows := [demoUser] }

def disabledUser : UserInDB :=
  { username := "d", full_name := none, email := none,
    hashed_password := get_password_hash "pw", disabled := true }

def disabledTable : UsersTable :=
  { columns := baseColumns, rows := [disabledUser] }

def emptyHashUser : UserInDB :=
  { username := "j", full_name := none, email := none,
    hashed_password := "", disabled := false }

def emptyHashTable : UsersTable :=
  { columns := baseColumns, rows := [emptyHashUser] }

def emptyTable : UsersTable := { columns := baseColumns, rows := [] }

/-- The duplicate registration attempt used by the witnesses. -/
def dupCreate : UserCreate :=
  { username := "g", password := "other", email := none, full_name := none }

/-- A stored hash is malformed when it is not a hash the credential
hasher can produce for any salt and any plaintext (the empty string,
init_db's migration default, is one such value). -/
def MalformedHash (h : String) : Prop :=
  ∀ (salt : Nat) (p : String), h ≠ password_hash_hash salt p

/-! ## Helper lemmas -/

theorem set_take_drop {α : Type} : ∀ (l : List α) (i : Nat) (c : α), i < l.length →
    l.set i c = l.take i ++ c :: l.drop (i + 1) := by
  intro l
  induction l with
  | nil => intro i c h; simp at h
  | cons a l ih =>
    intro i c h
    cases i with
    | zero => simp
    | succ i =>
      simp only [List.set_cons_succ, List.take_succ_cons, List.drop_succ_cons,
        List.cons_append, List.cons.injEq, true_and]
      exact ih i c (by simpa using h)

theorem dot_not_mem_encNat (n : Nat) : '.' ∉ encNat n := by
  intro h
  rcases List.mem_append.mp h with h | h
  · exact absurd (List.eq_of_mem_replicate h) (by decide)
  · simp at h

theorem dot_not_mem_encCodes (codes : List Nat) : '.' ∉ encCodes codes := by
  intro h
  rcases List.mem_flatten.mp h with ⟨l, hl, hmem⟩
  rcases List.mem_map.mp hl with ⟨n, _, rfl⟩
  exact dot_not_mem_encNat n hmem

theorem dot_not_mem_encSub (os : Option String) : '.' ∉ encSub os := by
  cases os with
  | none => simp [encSub]
  | some s =>
    intro h
    simp only [encSub, encStr, List.mem_cons, List.mem_append] at h
    rcases h with h | h
    · exact absurd h (by decide)
    · rcases h with h | h
      · exact dot_not_mem_encCodes _ h
      · simp at h

theorem dot_not_mem_encInt (i : Int) : '.' ∉ encInt i := by
  cases i with
  | ofNat n =>
    intro h
    rcases List.mem_cons.mp h with h | h
    · exact absurd h (by decide)
    · exact dot_not_mem_encNat n h
  | negSucc n =>
    intro h
    rcases List.mem_cons.mp h with h | h
    · exact absurd h (by decide)
    · exact dot_not_mem_encNat n h

theorem dot_not_mem_encPayload (p : Payload) : '.' ∉ encPayload p := by
  intro h
  rcases List.mem_append.mp h with h | h
  · exact dot_not_mem_encSub p.sub h
  · exact dot_not_mem_encInt p.exp h

theorem dot_not_mem_signingKey : '.' ∉ signingKey := by decide

theorem dot_not_mem_signBytes (pl : List Char) (h : '.' ∉ pl) :
    '.' ∉ signBytes pl := by
  intro hmem
  rcases List.mem_append.mp hmem with hm | hm
  · exact h hm
  · exact dot_not_mem_signingKey hm

theorem splitDot_ne_nil : ∀ l : List Char, splitDot l ≠ [] := by
  intro l
  induction l with
  | nil => simp [splitDot]
  | cons c rest ih =>
    simp only [splitDot]
    by_cases hc : c = '.'
    · rw [if_pos hc]; simp
    · rw [if_neg hc]
      cases h : splitDot rest with
      | nil => simp
      | cons s ss => simp

theorem splitDot_of_not_mem : ∀ l : List Char, '.' ∉ l → splitDot l = [l] := by
  intro l
  induction l with
  | nil => intro _; rfl
  | cons c rest ih =>
    intro h
    have hc : c ≠ '.' := fun hh => h (hh ▸ List.mem_cons_self c rest)
    have hrest : '.' ∉ rest := fun hh => h (List.mem_cons_of_mem c hh)
    simp only [splitDot, if_neg hc, ih hrest]

theorem splitDot_append_cons : ∀ (a b : List Char), '.' ∉ a →
    splitDot (a ++ '.' :: b) = a :: splitDot b := by
  intro a
  induction a with
  | nil =>
    intro b _
    simp [splitDot]
  | cons c rest ih =>
    intro b h
    have hc : c ≠ '.' := fun hh => h (hh ▸ List.mem_cons_self c rest)
    have hrest : '.' ∉ rest := fun hh => h (List.mem_cons_of_mem c hh)
    simp only [List.cons_append, splitDot, if_neg hc, List.append_eq, ih b hrest]

theorem parseNatAux_cons_a (xs : List Char) (cur : Nat) :
    parseNatAux ('a' :: xs) cur = parseNatAux xs (cur + 1) := rfl

theorem parseNatAux_cons_b (xs : List Char) (cur : Nat) :
    parseNatAux ('b' :: xs) cur = some (cur, xs) := rfl

theorem parseNatAux_encNat : ∀ (n : Nat) (rest : List Char) (cur : Nat),
    parseNatAux (encNat n ++ rest) cur = some (cur + n, rest) := by
  intro n
  induction n with
  | zero =>
    intro rest cur
    have he : encNat 0 ++ rest = 'b' :: rest := by simp [encNat]
    rw [he, parseNatAux_cons_b]
    simp
  | succ n ih =>
    intro rest cur
    have he : encNat (n + 1) ++ rest = 'a' :: (encNat n ++ rest) := by
      simp [encNat, List.replicate_succ]
    rw [he, parseNatAux_cons_a, ih rest (cur + 1)]
    have harith : cur + 1 + n = cur + (n + 1) := by omega
    rw [harith]

theorem parseCodesAux_cons_a (xs : List Char) (cur : Nat) (acc : List Nat) :
    parseCodesAux ('a' :: xs) cur acc = parseCodesAux xs (cur + 1) acc := rfl

theorem parseCodesAux_cons_b (xs : List Char) (cur : Nat) (acc : List Nat) :
    parseCodesAux ('b' :: xs) cur acc = parseCodesAux xs 0 (acc ++ [cur]) := rfl

theorem parseCodesAux_cons_c (xs : List Char) (acc : List Nat) :
    parseCodesAux ('c' :: xs) 0 acc = some (acc, xs) := rfl

theorem parseCodesAux_encNat : ∀ (n : Nat) (rest : List Char) (cur : Nat) (acc : List Nat),
    parseCodesAux (encNat n ++ rest) cur acc = parseCodesAux rest 0 (acc ++ [cur + n]) := by
  intro n
  induction n with
  | zero =>
    intro rest cur acc
    have he : encNat 0 ++ rest = 'b' :: rest := by simp [encNat]
    rw [he, parseCodesAux_cons_b]
    simp
  | succ n ih =>
    intro rest cur acc
    have he : encNat (n + 1) ++ rest = 'a' :: (encNat n ++ rest) := by
      simp [encNat, List.replicate_succ]
    rw [he, parseCodesAux_cons_a, ih rest (cur + 1) acc]
    have harith : cur + 1 + n = cur + (n + 1) := by omega
    rw [harith]

theorem parseCodesAux_encCodes : ∀ (codes : List Nat) (rest : List Char) (acc : List Nat),
    parseCodesAux (encCodes codes ++ 'c' :: rest) 0 acc = some (acc ++ codes, rest) := by
  intro codes
  induction codes with
  | nil =>
    intro rest acc
    have he : encCodes [] ++ 'c' :: rest = 'c' :: rest := by simp [encCodes]
    rw [he, parseCodesAux_cons_c]
    simp
  | cons k ks ih =>
    intro rest acc
    have he : encCodes (k :: ks) ++ 'c' :: rest =
        encNat k ++ (encCodes ks ++ 'c' :: rest) := by
      simp [encCodes, List.append_assoc]
    rw [he, parseCodesAux_encNat, ih rest (acc ++ [0 + k])]
    simp

theorem parseSub_encSub : ∀ (os : Option String) (rest : List Char),
    parseSub (encSub os ++ rest) = some (os, rest) := by
  intro os rest
  cases os with
  | none =>
    show parseSub ('o' :: rest) = some (none, rest)
    rfl
  | some s =>
    have he : encSub (some s) ++ rest =
        's' :: (encCodes (s.data.map Char.toNat) ++ 'c' :: rest) := by
      simp [encSub, encStr, List.append_assoc]
    rw [he]
    have hstep : parseSub ('s' :: (encCodes (s.data.map Char.toNat) ++ 'c' :: rest)) =
        (parseCodesAux (encCodes (s.data.map Char.toNat) ++ 'c' :: rest) 0 []).map
          (fun x => (some (String.mk (x.1.map Char.ofNat)), x.2)) := rfl
    rw [hstep, parseCodesAux_encCodes]
    have hcomp : (Char.ofNat ∘ Char.toNat) = id := by
      funext c; simp [Function.comp, Char.ofNat_toNat]
    simp [List.map_map, hcomp]

theorem parseInt_encInt : ∀ (i : Int) (rest : List Char),
    parseInt (encInt i ++ rest) = some (i, rest) := by
  intro i rest
  cases i with
  | ofNat n =>
    have he : encInt (Int.ofNat n) ++ rest = 'p' :: (encNat n ++ rest) := by
      simp [encInt]
    rw [he]
    have hstep : parseInt ('p' :: (encNat n ++ rest)) =
        (parseNatAux (encNat n ++ rest) 0).map (fun x => (Int.ofNat x.1, x.2)) := rfl
    rw [hstep, parseNatAux_encNat]
    simp
  | negSucc n =>
    have he : encInt (Int.negSucc n) ++ rest = 'q' :: (encNat n ++ rest) := by
      simp [encInt]
    rw [he]
    have hstep : parseInt ('q' :: (encNat n ++ rest)) =
        (parseNatAux (encNat n ++ rest) 0).map (fun x => (Int.negSucc x.1, x.2)) := rfl
    rw [hstep, parseNatAux_encNat]
    simp

theorem parsePayload_encPayload (p : Payload) :
    parsePayload (encPayload p) = some p := by
  have h1 : parseInt (encInt p.exp) = some (p.exp, []) := by
    have he : encInt p.exp = encInt p.exp ++ [] := by simp
    rw [he, parseInt_encInt]
  rw [parsePayload, encPayload, parseSub_encSub]
  simp [h1]

theorem splitDot_jwt_encode (p : Payload) :
    splitDot (jwt_encode p) = [encPayload p, signBytes (encPayload p)] := by
  rw [jwt_encode, splitDot_append_cons _ _ (dot_not_mem_encPayload p),
    splitDot_of_not_mem _ (dot_not_mem_signBytes _ (dot_not_mem_encPayload p))]

theorem jwt_decode_encode (p : Payload) (now : Int) :
    jwt_decode (jwt_encode p) now =
      if now < p.exp then Except.ok p
      else Except.error InvalidTokenError.expiredSignature := by
  rw [jwt_decode]
  simp [splitDot_jwt_encode, parsePayload_encPayload]

theorem jwt_decode_set_ne (p : Payload) (now : Int) (i : Nat) (c : Char)
    (hne : (jwt_encode p).set i c ≠ jwt_encode p) :
    ∃ e : InvalidTokenError,
      jwt_decode ((jwt_encode p).set i c) now = Except.error e := by
  have hpl : '.' ∉ encPayload p := dot_not_mem_encPayload p
  have hsig : '.' ∉ signBytes (encPayload p) := dot_not_mem_signBytes _ hpl
  rcases Nat.lt_trichotomy i (encPayload p).length with hi | hi | hi
  · -- the mutation hits the payload segment
    have hm : (jwt_encode p).set i c =
        (encPayload p).set i c ++ '.' :: signBytes (encPayload p) := by
      rw [jwt_encode, List.set_append_left _ _ hi]
    by_cases hc : c = '.'
    · subst hc
      have hdecomp : (encPayload p).set i '.' =
          (encPayload p).take i ++ '.' :: (encPayload p).drop (i + 1) :=
        set_take_drop _ i '.' hi
      have htake : '.' ∉ (encPayload p).take i :=
        fun h => hpl (List.take_subset _ _ h)
      have hdrop : '.' ∉ (encPayload p).drop (i + 1) :=
        fun h => hpl (List.drop_subset _ _ h)
      have hsplit : splitDot ((jwt_encode p).set i '.') =
          [(encPayload p).take i, (encPayload p).drop (i + 1),
            signBytes (encPayload p)] := by
        rw [hm, hdecomp, List.append_assoc, List.cons_append,
          splitDot_append_cons _ _ htake, splitDot_append_cons _ _ hdrop,
          splitDot_of_not_mem _ hsig]
      exact ⟨InvalidTokenError.decodeError, by rw [jwt_decode, hsplit]⟩
    · have hdf : '.' ∉ (encPayload p).set i c := by
        intro hmem
        rcases List.mem_or_eq_of_mem_set hmem with h | h
        · exact hpl h
        · exact hc h.symm
      have hsplit : splitDot ((jwt_encode p).set i c) =
          [(encPayload p).set i c, signBytes (encPayload p)] := by
        rw [hm, splitDot_append_cons _ _ hdf, splitDot_of_not_mem _ hsig]
      have hplne : (encPayload p).set i c ≠ encPayload p := by
        intro h
        apply hne
        rw [hm, h]
        rfl
      have hcond : ¬ (signBytes (encPayload p) =
          signBytes ((encPayload p).set i c)) := by
        intro h
        rw [signBytes, signBytes] at h
        exact hplne (List.append_cancel_right h).symm
      refine ⟨InvalidTokenError.signatureError, ?_⟩
      have hred : jwt_decode ((jwt_encode p).set i c) now =
          (if signBytes (encPayload p) = signBytes ((encPayload p).set i c) then
            (match parsePayload ((encPayload p).set i c) with
              | none => Except.error InvalidTokenError.decodeError
              | some q =>
                if now < q.exp then Except.ok q
                else Except.error InvalidTokenError.expiredSignature)
          else Except.error InvalidTokenError.signatureError) := by
        rw [jwt_decode, hsplit]
      rw [hred, if_neg hcond]
  · -- the mutation hits the separator
    have h0 : i - (encPayload p).length = 0 := by omega
    have hm : (jwt_encode p).set i c =
        encPayload p ++ c :: signBytes (encPayload p) := by
      rw [jwt_encode, List.set_append_right _ _ (Nat.le_of_eq hi.symm), h0,
        List.set_cons_zero]
    by_cases hc : c = '.'
    · subst hc
      exact absurd (by rw [hm]; rfl) hne
    · have hdf : '.' ∉ encPayload p ++ c :: signBytes (encPayload p) := by
        intro hmem
        rcases List.mem_append.mp hmem with h | h
        · exact hpl h
        · rcases List.mem_cons.mp h with h | h
          · exact hc h.symm
          · exact hsig h
      have hsplit : splitDot ((jwt_encode p).set i c) =
          [encPayload p ++ c :: signBytes (encPayload p)] := by
        rw [hm, splitDot_of_not_mem _ hdf]
      exact ⟨InvalidTokenError.decodeError, by rw [jwt_decode, hsplit]⟩
  · -- the mutation hits the signature segment
    have hstep : i - (encPayload p).length = (i - (encPayload p).length - 1) + 1 := by
      omega
    have hm : (jwt_encode p).set i c =
        encPayload p ++ '.' ::
          (signBytes (encPayload p)).set (i - (encPayload p).length - 1) c := by
      rw [jwt_encode, List.set_append_right _ _ (Nat.le_of_lt hi), hstep,
        List.set_cons_succ]
      simp
    by_cases hjlen :
        (signBytes (encPayload p)).length ≤ i - (encPayload p).length - 1
    · exfalso
      apply hne
      rw [hm, List.set_eq_of_length_le hjlen]
      rfl
    · have hjlt : i - (encPayload p).length - 1 < (signBytes (encPayload p)).length :=
        Nat.lt_of_not_le hjlen
      by_cases hc : c = '.'
      · subst hc
        have hdecomp :
            (signBytes (encPayload p)).set (i - (encPayload p).length - 1) '.' =
              (signBytes (encPayload p)).take (i - (encPayload p).length - 1) ++
                '.' :: (signBytes (encPayload p)).drop (i - (encPayload p).length) := by
          rw [set_take_drop _ _ '.' hjlt]
          rw [← hstep]
        have htake : '.' ∉ (signBytes (encPayload p)).take (i - (encPayload p).length - 1) :=
          fun h => hsig (List.take_subset _ _ h)
        have hdrop : '.' ∉ (signBytes (encPayload p)).drop (i - (encPayload p).length) :=
          fun h => hsig (List.drop_subset _ _ h)
        have hsplit : splitDot ((jwt_encode p).set i '.') =
            [encPayload p,
              (signBytes (encPayload p)).take (i - (encPayload p).length - 1),
              (signBytes (encPayload p)).drop (i - (encPayload p).length)] := by
          rw [hm, hdecomp, splitDot_append_cons _ _ hpl,
            splitDot_append_cons _ _ htake, splitDot_of_not_mem _ hdrop]
        exact ⟨InvalidTokenError.decodeError, by rw [jwt_decode, hsplit]⟩
      · have hdf : '.' ∉ (signBytes (encPayload p)).set (i - (encPayload p).length - 1) c := by
          intro hmem
          rcases List.mem_or_eq_of_mem_set hmem with h | h
          · exact hsig h
          · exact hc h.symm
        have hsplit : splitDot ((jwt_encode p).set i c) =
            [encPayload p,
              (signBytes (encPayload p)).set (i - (encPayload p).length - 1) c] := by
          rw [hm, splitDot_append_cons _ _ hpl, splitDot_of_not_mem _ hdf]
        have hcond : ¬ ((signBytes (encPayload p)).set (i - (encPayload p).length - 1) c =
            signBytes (encPayload p)) := by
          intro h
          apply hne
          rw [hm, h]
          rfl
        refine ⟨InvalidTokenError.signatureError, ?_⟩
        have hred : jwt_decode ((jwt_encode p).set i c) now =
            (if (signBytes (encPayload p)).set (i - (encPayload p).length - 1) c =
                signBytes (encPayload p) then
              (match parsePayload (encPayload p) with
                | none => Except.error InvalidTokenError.decodeError
                | some q =>
                  if now < q.exp then Except.ok q
                  else Except.error InvalidTokenError.expiredSignature)
            else Except.error InvalidTokenError.signatureError) := by
          rw [jwt_decode, hsplit]
        rw [hred, if_neg hcond]

/-! ## Hasher lemmas -/

theorem stripSalt_cons_a (r : List Char) : stripSalt ('a' :: r) = stripSalt r := rfl

theorem stripSalt_replicate : ∀ (k : Nat) (rest : List Char),
    stripSalt (List.replicate k 'a' ++ '$' :: rest) = some rest := by
  intro k
  induction k with
  | zero => intro rest; rfl
  | succ k ih =>
    intro rest
    rw [List.replicate_succ, List.cons_append, stripSalt_cons_a, ih]

theorem verifyChars_hashChars (salt : Nat) (pw : List Char) :
    verifyChars pw (hashChars salt pw) = true := by
  have hstep : verifyChars pw (hashChars salt pw) =
      (match stripSalt (List.replicate salt 'a' ++ '$' :: pw) with
        | some rest => decide (rest = pw)
        | none => false) := rfl
  rw [hstep, stripSalt_replicate]
  simp

theorem stripSalt_sound : ∀ (r rest : List Char), stripSalt r = some rest →
    ∃ k, r = List.replicate k 'a' ++ '$' :: rest := by
  intro r
  induction r with
  | nil => intro rest h; exact Option.noConfusion h
  | cons c r ih =>
    intro rest h
    by_cases hc : c = 'a'
    · subst hc
      rw [stripSalt_cons_a] at h
      rcases ih rest h with ⟨k, hk⟩
      exact ⟨k + 1, by rw [List.replicate_succ, List.cons_append, hk]⟩
    · by_cases hd : c = '$'
      · subst hd
        have hstep : stripSalt ('$' :: r) = some r := by
          rw [stripSalt, if_neg (by decide), if_pos rfl]
        rw [hstep] at h
        rcases Option.some.injEq .. ▸ h with rfl
        exact ⟨0, by simp⟩
      · have hstep : stripSalt (c :: r) = none := by
          rw [stripSalt, if_neg hc, if_neg hd]
        rw [hstep] at h
        exact Option.noConfusion h

theorem verifyChars_sound (plain hashed : List Char)
    (h : verifyChars plain hashed = true) :
    ∃ salt, hashed = hashChars salt plain := by
  cases hashed with
  | nil => exact Bool.noConfusion h
  | cons c r =>
    by_cases hc : c = '$'
    · subst hc
      have hstep : verifyChars plain ('$' :: r) =
          (match stripSalt r with
            | some rest => decide (rest = plain)
            | none => false) := rfl
      rw [hstep] at h
      cases hs : stripSalt r with
      | none => rw [hs] at h; exact Bool.noConfusion h
      | some rest =>
        rw [hs] at h
        have hrp : rest = plain := of_decide_eq_true h
        rcases stripSalt_sound r rest hs with ⟨k, hk⟩
        exact ⟨k, by rw [hashChars, hk, hrp]⟩
    · have hstep : verifyChars plain (c :: r) = false := by
        rw [verifyChars, if_neg hc]
      rw [hstep] at h
      exact Bool.noConfusion h

theorem verify_password_hash (salt : Nat) (pw : String) :
    verify_password pw (password_hash_hash salt pw) = true :=
  verifyChars_hashChars salt pw.data

theorem verify_password_sound (plain hashed : String)
    (h : verify_password plain hashed = true) :
    ∃ salt, hashed = password_hash_hash salt plain := by
  rcases verifyChars_sound plain.data hashed.data h with ⟨salt, hk⟩
  refine ⟨salt, ?_⟩
  rw [password_hash_hash]
  cases hashed with
  | mk data => exact congrArg String.mk hk

/-! ## Store and resolution lemmas -/

theorem get_user_username (db : UsersTable) (uname : String) (u : UserInDB)
    (h : get_user db uname = some u) : u.username = uname := by
  rw [get_user] at h
  have hp := List.find?_some h
  simpa using hp

theorem get_current_user_decode_error (db : UsersTable) (now : Int)
    (token : List Char) (e : InvalidTokenError)
    (h : jwt_decode token now = Except.error e) :
    get_current_user db now token = Except.error credentials_exception := by
  rw [get_current_user, h]

theorem get_current_user_ok (db : UsersTable) (now : Int) (token : List Char)
    (p : Payload) (uname : String) (u : UserInDB)
    (hdec : jwt_decode token now = Except.ok p)
    (hsub : p.sub = some uname)
    (hu : get_user db uname = some u) :
    get_current_user db now token = Except.ok u := by
  simp [get_current_user, hdec, hsub, hu]

theorem get_current_user_no_user (db : UsersTable) (now : Int) (token : List Char)
    (p : Payload) (uname : String)
    (hdec : jwt_decode token now = Except.ok p)
    (hsub : p.sub = some uname)
    (hu : get_user db uname = none) :
    get_current_user db now token = Except.error credentials_exception := by
  simp [get_current_user, hdec, hsub, hu]

/-! ## Schema migration lemmas -/

theorem columns_addColumn (t : UsersTable) (c : String) :
    (addColumn t c).columns = t.columns ++ [c] := rfl

theorem mem_columns_addColumn (t : UsersTable) (c c' : String)
    (h : c ∈ t.columns) : c ∈ (addColumn t c').columns := by
  rw [columns_addColumn]
  exact List.mem_append_left _ h

theorem mem_columns_addColumn_self (t : UsersTable) (c : String) :
    c ∈ (addColumn t c).columns := by
  rw [columns_addColumn]
  exact List.mem_append_right _ (List.mem_singleton.mpr rfl)

theorem mem_columns_migrate_step (t : UsersTable) (s : List String) (c c' : String)
    (h : c ∈ t.columns) : c ∈ (migrate_step t s c').columns := by
  rw [migrate_step]
  by_cases hb : c' ∈ s
  · rw [if_pos hb]; exact h
  · rw [if_neg hb]; exact mem_columns_addColumn t c c' h

theorem mem_columns_migrate_step_self (t : UsersTable) (s : List String) (c : String)
    (hs : s ⊆ t.columns) : c ∈ (migrate_step t s c).columns := by
  rw [migrate_step]
  by_cases hb : c ∈ s
  · rw [if_pos hb]; exact hs hb
  · rw [if_neg hb]; exact mem_columns_addColumn_self t c

theorem columns_subset_migrate_step (t : UsersTable) (s : List String) (c : String) :
    t.columns ⊆ (migrate_step t s c).columns := by
  intro x hx
  exact mem_columns_migrate_step t s x c hx

theorem migrate_step_eq_of_mem (t : UsersTable) (s : List String) (c : String)
    (h : c ∈ s) : migrate_step t s c = t := by
  rw [migrate_step, if_pos h]

theorem create_user_columns (db : UsersTable) (u : UserCreate) (db' : UsersTable)
    (h : create_user db u = Except.ok db') : db'.columns = db.columns := by
  rw [create_user] at h
  by_cases hb : db.rows.any (fun r => r.username == u.username)
  · rw [if_pos hb] at h
    exact Except.noConfusion h
  · rw [if_neg hb] at h
    have := Except.ok.injEq .. ▸ h
    rw [← this]

theorem init_db_columns_and_seed (db : Option UsersTable) :
    "full_name" ∈ (init_db db).columns ∧
    "email" ∈ (init_db db).columns ∧
    "hashed_password" ∈ (init_db db).columns ∧
    "disabled" ∈ (init_db db).columns ∧
    (get_user (init_db db) "johndoe").isSome = true := by
  rw [init_db]
  have hsub0 : (createTableIfNotExists db).columns ⊆
      (migrate_step (createTableIfNotExists db) (createTableIfNotExists db).columns
        "full_name").columns :=
    columns_subset_migrate_step _ _ _
  have hsub1 : (createTableIfNotExists db).columns ⊆
      (migrate_step
        (migrate_step (createTableIfNotExists db) (createTableIfNotExists db).columns
          "full_name")
        (createTableIfNotExists db).columns "email").columns :=
    fun x hx => columns_subset_migrate_step _ _ _ (hsub0 hx)
  have hsub2 : (createTableIfNotExists db).columns ⊆
      (migrate_step
        (migrate_step
          (migrate_step (createTableIfNotExists db) (createTableIfNotExists db).columns
            "full_name")
          (createTableIfNotExists db).columns "email")
        (createTableIfNotExists db).columns "hashed_password").columns :=
    fun x hx => columns_subset_migrate_step _ _ _ (hsub1 hx)
  have h1 : "full_name" ∈
      (migrate_step (createTableIfNotExists db) (createTableIfNotExists db).columns
        "full_name").columns :=
    mem_columns_migrate_step_self _ _ _ (fun x hx => hx)
  have h2 : "email" ∈
      (migrate_step
        (migrate_step (createTableIfNotExists db) (createTableIfNotExists db).columns
          "full_name")
        (createTableIfNotExists db).columns "email").columns :=
    mem_columns_migrate_step_self _ _ _ hsub0
  have h3 : "hashed_password" ∈
      (migrate_step
        (migrate_step
          (migrate_step (createTableIfNotExists db) (createTableIfNotExists db).columns
            "full_name")
          (createTableIfNotExists db).columns "email")
        (createTableIfNotExists db).columns "hashed_password").columns :=
    mem_columns_migrate_step_self _ _ _ hsub1
  have h4 : "disabled" ∈
      (migrate_step
        (migrate_step
          (migrate_step
            (migrate_step (createTableIfNotExists db) (createTableIfNotExists db).columns
              "full_name")
            (createTableIfNotExists db).columns "email")
          (createTableIfNotExists db).columns "hashed_password")
        (createTableIfNotExists db).columns "disabled").columns :=
    mem_columns_migrate_step_self _ _ _ hsub2
  generalize hT :
    migrate_step
      (migrate_step
        (migrate_step
          (migrate_step (createTableIfNotExists db) (createTableIfNotExists db).columns
            "full_name")
          (createTableIfNotExists db).columns "email")
        (createTableIfNotExists db).columns "hashed_password")
      (createTableIfNotExists db).columns "disabled" = T
  rw [hT] at h4
  have h1' : "full_name" ∈ T.columns := by
    rw [← hT]
    exact mem_columns_migrate_step _ _ _ _
      (mem_columns_migrate_step _ _ _ _ (mem_columns_migrate_step _ _ _ _ h1))
  have h2' : "email" ∈ T.columns := by
    rw [← hT]
    exact mem_columns_migrate_step _ _ _ _ (mem_columns_migrate_step _ _ _ _ h2)
  have h3' : "hashed_password" ∈ T.columns := by
    rw [← hT]
    exact mem_columns_migrate_step _ _ _ _ h3
  by_cases hj : (get_user T "johndoe").isSome = true
  · rw [if_pos hj]
    exact ⟨h1', h2', h3', h4, hj⟩
  · rw [if_neg hj]
    have hnone : get_user T "johndoe" = none := by
      cases hg : get_user T "johndoe" with
      | none => rfl
      | some u => rw [hg] at hj; exact absurd rfl hj
    have hanyf : T.rows.any (fun r => r.username == "johndoe") = false := by
      rw [get_user, List.find?_eq_none] at hnone
      rw [List.any_eq_false]
      intro r hr
      exact fun hb => hnone r hr hb
    have hcu : create_user T seedUser =
        Except.ok
          { T with
            rows := T.rows ++
              [{ username := "johndoe"
                 full_name := some "John Doe"
                 email := some "johndoe@example.com"
                 hashed_password := get_password_hash "secret"
                 disabled := false }] } := by
      rw [create_user]
      have hx : T.rows.any (fun r => r.username == seedUser.username) = false := hanyf
      rw [if_neg (by simp [hx])]
      rfl
    rw [hcu]
    refine ⟨h1', h2', h3', h4, ?_⟩
    rw [get_user]
    simp only [List.find?_append]
    rw [get_user] at hnone
    rw [hnone]
    rfl

/-! ## The claims -/

/-- Claim C1: for a user record present in the store, a token issued
for that user by create_access_token with the login TTL and
immediately passed to get_current_user resolves to that record (hence
the same username); and mutating even one character of the token
string makes get_current_user fail with the unified credentials
failure instead of returning a user. -/
theorem claim_C1_token_roundtrip_and_tamper (db : UsersTable) (now : Int)
    (uname : String) (u : UserInDB) (hu : get_user db uname = some u) :
    get_current_user db now
      (create_access_token now (some u.username)
        (some (60 * ACCESS_TOKEN_EXPIRE_MINUTES))) = Except.ok u ∧
    (∀ (i : Nat) (c : Char),
      (create_access_token now (some u.username)
          (some (60 * ACCESS_TOKEN_EXPIRE_MINUTES))).set i c ≠
        create_access_token now (some u.username)
          (some (60 * ACCESS_TOKEN_EXPIRE_MINUTES)) →
      get_current_user db now
        ((create_access_token now (some u.username)
            (some (60 * ACCESS_TOKEN_EXPIRE_MINUTES))).set i c) =
        Except.error credentials_exception) := by
  have huname : u.username = uname := get_user_username db uname u hu
  have hu' : get_user db u.username = some u := by rw [huname]; exact hu
  have hlt : now < access_token_expire now (some (60 * ACCESS_TOKEN_EXPIRE_MINUTES)) := by
    have h1800 : access_token_expire now (some (60 * ACCESS_TOKEN_EXPIRE_MINUTES)) =
        now + 1800 := by
      rw [access_token_expire, if_pos (by decide)]
      norm_num [ACCESS_TOKEN_EXPIRE_MINUTES]
    rw [h1800]
    omega
  have hdec : jwt_decode (create_access_token now (some u.username)
      (some (60 * ACCESS_TOKEN_EXPIRE_MINUTES))) now =
      Except.ok (Payload.mk (some u.username)
        (access_token_expire now (some (60 * ACCESS_TOKEN_EXPIRE_MINUTES)))) := by
    rw [create_access_token, jwt_decode_encode]
    simp [hlt]
  constructor
  · exact get_current_user_ok db now _ _ u.username u hdec rfl hu'
  · intro i c hne
    rw [create_access_token] at hne ⊢
    rcases jwt_decode_set_ne _ now i c hne with ⟨e, he⟩
    exact get_current_user_decode_error db now _ e he

theorem claim_C1_witness :
    get_user demoTable "g" = some demoUser ∧
    (get_current_user demoTable 0
      (create_access_token 0 (some demoUser.username)
        (some (60 * ACCESS_TOKEN_EXPIRE_MINUTES))) = Except.ok demoUser ∧
    (∀ (i : Nat) (c : Char),
      (create_access_token 0 (some demoUser.username)
          (some (60 * ACCESS_TOKEN_EXPIRE_MINUTES))).set i c ≠
        create_access_token 0 (some demoUser.username)
          (some (60 * ACCESS_TOKEN_EXPIRE_MINUTES)) →
      get_current_user demoTable 0
        ((create_access_token 0 (some demoUser.username)
            (some (60 * ACCESS_TOKEN_EXPIRE_MINUTES))).set i c) =
        Except.error credentials_exception)) :=
  ⟨rfl, claim_C1_token_roundtrip_and_tamper demoTable 0 "g" demoUser rfl⟩

/-- Claim C2: for an absent username, authenticate_user performs
exactly one password verification, against the fixed dummy hash
DUMMY_HASH, before failing; for a present user with a wrong password
it performs exactly one verification, against the stored hash. -/
theorem claim_C2_single_dummy_verification (db : UsersTable)
    (username password : String) :
    (get_user db username = none →
      authenticate_user_trace db username password =
        (none, [(password, DUMMY_HASH)])) ∧
    (∀ u : UserInDB, get_user db username = some u →
      verify_password password u.hashed_password = false →
      authenticate_user_trace db username password =
        (none, [(password, u.hashed_password)])) := by
  constructor
  · intro h
    rw [authenticate_user_trace, h]
  · intro u hu hv
    rw [authenticate_user_trace, hu]
    simp [hv]

theorem claim_C2_witness :
    authenticate_user_trace demoTable "nobody" "pw" = (none, [("pw", DUMMY_HASH)]) ∧
    authenticate_user_trace demoTable "g" "wrong" =
      (none, [("wrong", demoUser.hashed_password)]) :=
  ⟨(claim_C2_single_dummy_verification demoTable "nobody" "pw").1 rfl,
   (claim_C2_single_dummy_verification demoTable "g" "wrong").2 demoUser rfl (by decide)⟩

/-- Claim C3: token verification checks signature integrity (any
single-character tamper is rejected) and expiry (an elapsed token is
rejected), and every structural decode failure, signature mismatch, or
expiry violation produces the same single credentials failure from
get_current_user, so a caller cannot distinguish why a token was
rejected. -/
theorem claim_C3_unified_failure (db : UsersTable) (now : Int) :
    (∀ (token : List Char) (e : InvalidTokenError),
      jwt_decode token now = Except.error e →
      get_current_user db now token = Except.error credentials_exception) ∧
    (∀ p : Payload, p.exp ≤ now →
      jwt_decode (jwt_encode p) now =
        Except.error InvalidTokenError.expiredSignature) ∧
    (∀ (p : Payload) (i : Nat) (c : Char),
      (jwt_encode p).set i c ≠ jwt_encode p →
      ∃ e : InvalidTokenError,
        jwt_decode ((jwt_encode p).set i c) now = Except.error e) := by
  refine ⟨?_, ?_, ?_⟩
  · intro token e h
    exact get_current_user_decode_error db now token e h
  · intro p hexp
    rw [jwt_decode_encode, if_neg (by omega)]
  · intro p i c hne
    exact jwt_decode_set_ne p now i c hne

theorem claim_C3_witness :
    (jwt_decode ['x'] 0 = Except.error InvalidTokenError.decodeError ∧
      get_current_user emptyTable 0 ['x'] = Except.error credentials_exception) ∧
    (({ sub := some "g", exp := 0 } : Payload).exp ≤ (0 : Int) ∧
      jwt_decode (jwt_encode { sub := some "g", exp := 0 }) 0 =
        Except.error InvalidTokenError.expiredSignature) ∧
    ((jwt_encode { sub := some "g", exp := 9 }).set 0 'z' ≠
        jwt_encode { sub := some "g", exp := 9 } ∧
      ∃ e : InvalidTokenError,
        jwt_decode ((jwt_encode { sub := some "g", exp := 9 }).set 0 'z') 0 =
          Except.error e) :=
  ⟨⟨rfl, (claim_C3_unified_failure emptyTable 0).1 ['x']
      InvalidTokenError.decodeError rfl⟩,
    ⟨by norm_num, (claim_C3_unified_failure emptyTable 0).2.1 _ (by norm_num)⟩,
    ⟨by decide, (claim_C3_unified_failure emptyTable 0).2.2 _ 0 'z' (by decide)⟩⟩

/-- Claim C4 counterexample: create_access_token called with a
negative expires_delta embeds an expiry that is not strictly in the
future at issuance time - issuing at time 0 with delta -60 embeds
expiry -60, and the resulting token is already rejected as expired at
the issuance instant. -/
theorem claim_C4_counterexample :
    create_access_token 0 (some "g") (some (-60)) =
      jwt_encode { sub := some "g", exp := -60 } ∧
    ¬ ((0 : Int) < -60) ∧
    jwt_decode (create_access_token 0 (some "g") (some (-60))) 0 =
      Except.error InvalidTokenError.expiredSignature := by
  refine ⟨rfl, by norm_num, ?_⟩
  rfl

/-- Claim C4 amended: for every call to create_access_token whose
expires_delta is None, zero, or nonnegative, the expiry embedded in
the issued token is strictly in the future at issuance time (a
negative expires_delta, which the original claim also covered, embeds
a past expiry instead); and for every token whose expiry has elapsed
(current time at or past the expiry), get_current_user fails rather
than returning a user. -/
theorem claim_C4_future_expiry_amended (db : UsersTable) (now : Int) :
    (∀ ed : Option Int, (∀ d : Int, ed = some d → 0 ≤ d) →
      now < access_token_expire now ed) ∧
    (∀ p : Payload, p.exp ≤ now →
      get_current_user db now (jwt_encode p) =
        Except.error credentials_exception) := by
  constructor
  · intro ed hed
    cases ed with
    | none =>
      rw [access_token_expire, if_neg (by decide)]
      omega
    | some d =>
      have hd : 0 ≤ d := hed d rfl
      by_cases hz : d = 0
      · subst hz
        rw [access_token_expire, if_neg (by decide)]
        omega
      · have htruthy : expires_delta_truthy (some d) = true := by
          simp [expires_delta_truthy]
          exact hz
        rw [access_token_expire, if_pos htruthy]
        simp only [Option.getD_some]
        omega
  · intro p hexp
    apply get_current_user_decode_error db now _ InvalidTokenError.expiredSignature
    rw [jwt_decode_encode, if_neg (by omega)]

theorem claim_C4_witness :
    (∀ d : Int, some (0 : Int) = some d → 0 ≤ d) ∧
    (0 : Int) < access_token_expire 0 (some 0) ∧
    ({ sub := some "g", exp := -5 } : Payload).exp ≤ (0 : Int) ∧
    get_current_user emptyTable 0 (jwt_encode { sub := some "g", exp := -5 }) =
      Except.error credentials_exception := by
  refine ⟨?_, ?_, by decide, ?_⟩
  · intro d hd
    cases hd
    decide
  · exact (claim_C4_future_expiry_amended emptyTable 0).1 (some 0)
      (fun d hd => by cases hd; decide)
  · exact (claim_C4_future_expiry_amended emptyTable 0).2
      { sub := some "g", exp := -5 } (by decide)

/-- Claim C5: a second registration with an already-registered
username fails with the DuplicateUser outcome (the handler's HTTP 400,
not an untyped error), and after the failure the original record, with
its hashed_password, is still what the lookup returns. -/
theorem claim_C5_duplicate_registration (db : UsersTable) (u : UserCreate)
    (uOld : UserInDB) (h : get_user db u.username = some uOld) :
    register db u =
      (db, Except.error (RouteError.http
        { status_code := 400, detail := "Username already exists", headers := [] })) ∧
    get_user (register db u).1 u.username = some uOld := by
  have hreg : register db u =
      (db, Except.error (RouteError.http
        { status_code := 400, detail := "Username already exists", headers := [] })) := by
    rw [register, h]
  exact ⟨hreg, by rw [hreg]; exact h⟩

theorem claim_C5_witness :
    get_user demoTable dupCreate.username = some demoUser ∧
    (register demoTable dupCreate =
      (demoTable, Except.error (RouteError.http
        { status_code := 400, detail := "Username already exists", headers := [] })) ∧
    get_user (register demoTable dupCreate).1 dupCreate.username = some demoUser) :=
  ⟨rfl, claim_C5_duplicate_registration demoTable dupCreate demoUser rfl⟩

/-- Claim C6: verifying any plaintext against a malformed stored hash
(the empty string, init_db's migration default, included) returns
false instead of raising an error, and a user record whose stored hash
is malformed - in particular empty - never authenticates. -/
theorem claim_C6_malformed_hash_rejected (hpw : String) (hmal : MalformedHash hpw) :
    (∀ plain : String, verify_password plain hpw = false) ∧
    (∀ (db : UsersTable) (uname pwd : String) (u : UserInDB),
      get_user db uname = some u → u.hashed_password = hpw →
      authenticate_user db uname pwd = none) := by
  have hv : ∀ plain : String, verify_password plain hpw = false := by
    intro plain
    cases hb : verify_password plain hpw with
    | false => rfl
    | true =>
      rcases verify_password_sound plain hpw hb with ⟨salt, hs⟩
      exact absurd hs (hmal salt plain)
  refine ⟨hv, ?_⟩
  intro db uname pwd u hu hhash
  have hvf : verify_password pwd u.hashed_password = false := by
    rw [hhash]; exact hv pwd
  rw [authenticate_user, authenticate_user_trace, hu]
  simp [hvf]

theorem claim_C6_witness :
    MalformedHash "" ∧
    verify_password "secret" "" = false ∧
    authenticate_user emptyHashTable "j" "secret" = none := by
  have hmal : MalformedHash "" := by
    intro salt p hcontra
    have h3 : ([] : List Char) = hashChars salt p.data := congrArg String.data hcontra
    rw [hashChars] at h3
    exact List.noConfusion h3
  exact ⟨hmal, (claim_C6_malformed_hash_rejected "" hmal).1 "secret",
    (claim_C6_malformed_hash_rejected "" hmal).2 emptyHashTable "j" "secret"
      emptyHashUser rfl rfl⟩

/-- Claim C7: authenticate_user returns the record whenever the
password is correct, regardless of the disabled flag (no disabled
check is performed there), while get_current_active_user fails exactly
when disabled is true and otherwise returns the record unchanged. -/
theorem claim_C7_two_stage_disabled_gate :
    (∀ (db : UsersTable) (uname pwd : String) (u : UserInDB),
      get_user db uname = some u →
      verify_password pwd u.hashed_password = true →
      authenticate_user db uname pwd = some u) ∧
    (∀ u : UserInDB,
      (u.disabled = true → get_current_active_user u =
        Except.error { status_code := 400, detail := "Inactive user", headers := [] }) ∧
      (u.disabled = false → get_current_active_user u = Except.ok u)) := by
  constructor
  · intro db uname pwd u hu hv
    rw [authenticate_user, authenticate_user_trace, hu]
    simp [hv]
  · intro u
    constructor
    · intro hd
      rw [get_current_active_user, if_pos hd]
    · intro hd
      rw [get_current_active_user, if_neg (by rw [hd]; exact Bool.false_ne_true)]

theorem claim_C7_witness :
    (get_user disabledTable "d" = some disabledUser ∧
      verify_password "pw" disabledUser.hashed_password = true ∧
      authenticate_user disabledTable "d" "pw" = some disabledUser) ∧
    (disabledUser.disabled = true ∧
      get_current_active_user disabledUser =
        Except.error { status_code := 400, detail := "Inactive user", headers := [] }) :=
  ⟨⟨rfl, by decide, claim_C7_two_stage_disabled_gate.1 disabledTable "d" "pw"
      disabledUser rfl (by decide)⟩,
    ⟨rfl, (claim_C7_two_stage_disabled_gate.2 disabledUser).1 rfl⟩⟩

/-- Claim C8: running init_db twice in a row on the same store is
equivalent to running it once - the second run leaves the table
(schema and rows) identical, adds no column that already exists, and
inserts no second copy of the seeded default user. -/
theorem claim_C8_init_db_idempotent (db : Option UsersTable) :
    init_db (some (init_db db)) = init_db db := by
  rcases init_db_columns_and_seed db with ⟨h1, h2, h3, h4, hseed⟩
  generalize hT : init_db db = T at h1 h2 h3 h4 hseed ⊢
  simp only [init_db, createTableIfNotExists]
  rw [migrate_step_eq_of_mem _ _ _ h1, migrate_step_eq_of_mem _ _ _ h2,
    migrate_step_eq_of_mem _ _ _ h3, migrate_step_eq_of_mem _ _ _ h4,
    if_pos hseed]

/-- Claim C9: a token that passes signature and expiry verification
but whose subject username is absent from the store makes
get_current_user fail with the unified credentials failure - it
neither crashes nor returns a user. -/
theorem claim_C9_valid_token_unknown_subject (db : UsersTable) (now : Int)
    (token : List Char) (p : Payload) (uname : String)
    (hdec : jwt_decode token now = Except.ok p)
    (hsub : p.sub = some uname)
    (hu : get_user db uname = none) :
    get_current_user db now token = Except.error credentials_exception := by
  simp [get_current_user, hdec, hsub, hu]

theorem claim_C9_witness :
    jwt_decode (jwt_encode { sub := some "g", exp := 9 }) 0 =
      Except.ok { sub := some "g", exp := 9 } ∧
    ({ sub := some "g", exp := 9 } : Payload).sub = some "g" ∧
    get_user emptyTable "g" = none ∧
    get_current_user emptyTable 0 (jwt_encode { sub := some "g", exp := 9 }) =
      Except.error credentials_exception :=
  ⟨rfl, rfl, rfl,
    claim_C9_valid_token_unknown_subject emptyTable 0 _ _ "g" rfl rfl rfl⟩

/-- Claim C10: a zero expires_delta is falsy in the issuance
condition, so the token's expiry falls back to the 15-minute default
rather than now plus zero; the default branch is selected exactly for
a None or zero expires_delta; and the login route always passes the
distinct 30-minute constant, so every login-issued token embeds now
plus 30 minutes and the default branch is unreachable from the login
flow. -/
theorem claim_C10_zero_delta_default (db : UsersTable) :
    (∀ now : Int, access_token_expire now (some 0) = now + 15 * 60) ∧
    (∀ ed : Option Int, expires_delta_truthy ed = false ↔ ed = none ∨ ed = some 0) ∧
    expires_delta_truthy (some (60 * ACCESS_TOKEN_EXPIRE_MINUTES)) = true ∧
    (∀ (now : Int) (username password : String) (u : UserInDB),
      authenticate_user db username password = some u →
      login_for_access_token db now username password =
        Except.ok (Token.mk (jwt_encode (Payload.mk (some u.username)
          (now + 60 * ACCESS_TOKEN_EXPIRE_MINUTES))) "bearer")) := by
  refine ⟨?_, ?_, by decide, ?_⟩
  · intro now
    rw [access_token_expire, if_neg (by decide)]
  · intro ed
    cases ed with
    | none => simp [expires_delta_truthy]
    | some d => simp [expires_delta_truthy]
  · intro now username password u hauth
    have hexp : access_token_expire now (some (60 * ACCESS_TOKEN_EXPIRE_MINUTES)) =
        now + 60 * ACCESS_TOKEN_EXPIRE_MINUTES := by
      rw [access_token_expire, if_pos (by decide)]
      simp
    simp only [login_for_access_token, hauth]
    rw [create_access_token, hexp]

theorem claim_C10_witness :
    access_token_expire 7 (some 0) = 7 + 15 * 60 ∧
    (expires_delta_truthy (some (-3)) = false ↔
      some (-3 : Int) = none ∨ some (-3 : Int) = some 0) ∧
    authenticate_user demoTable "g" "pw" = some demoUser ∧
    login_for_access_token demoTable 0 "g" "pw" =
      Except.ok (Token.mk (jwt_encode (Payload.mk (some demoUser.username)
        (0 + 60 * ACCESS_TOKEN_EXPIRE_MINUTES))) "bearer") :=
  ⟨(claim_C10_zero_delta_default demoTable).1 7,
    (claim_C10_zero_delta_default demoTable).2.1 (some (-3)),
    by decide,
    (claim_C10_zero_delta_default demoTable).2.2.2 0 "g" "pw" demoUser (by decide)⟩
